import Mathlib

/-!
Shallow embedding of the firmata-rs client library (src/src/lib.rs) and proofs
about its encoder, decoder, retry wrapper and board construction.

Bytes are modelled as `Nat` (kept below 256 by construction of the wire
frames); Rust `i32` values are modelled as `Int` with explicit truncation
where the source casts (`as u8` is `% 256`, arithmetic shift right by 7 is
floor division by 128).  A Rust `Result` is the `ok`/`fail` part of
`RunResult`; a Rust panic (out-of-bounds `Vec` indexing, `Option::expect`)
is the `oob`/`panicked` part.
-/

namespace Firmata

/-! ### Protocol constants

Modelled from the spec: the repository's `src/constants.rs` module
(`mod constants; pub use constants::*;`) is not under `src/`; the byte values
below are the ones fixed by the spec's wire-protocol table (section 6).
-/

/-- Modelled from the spec: report/protocol version opcode 0xF9. -/
def REPORT_VERSION : Nat := 0xF9
/-- Modelled from the spec: analog message range start 0xE0. -/
def ANALOG_MESSAGE : Nat := 0xE0
/-- Modelled from the spec: analog message range end 0xEF. -/
def ANALOG_MESSAGE_BOUND : Nat := 0xEF
/-- Modelled from the spec: digital message range start 0x90. -/
def DIGITAL_MESSAGE : Nat := 0x90
/-- Modelled from the spec: digital message range end 0x9F. -/
def DIGITAL_MESSAGE_BOUND : Nat := 0x9F
/-- Modelled from the spec: SysEx frame start marker 0xF0. -/
def START_SYSEX : Nat := 0xF0
/-- Modelled from the spec: SysEx frame end marker 0xF7. -/
def END_SYSEX : Nat := 0xF7
/-- Modelled from the spec: set-pin-mode opcode 0xF4. -/
def SET_PIN_MODE : Nat := 0xF4
/-- Modelled from the spec: report-digital opcode base 0xD0. -/
def REPORT_DIGITAL : Nat := 0xD0
/-- Modelled from the spec: report-analog opcode base 0xC0. -/
def REPORT_ANALOG : Nat := 0xC0
/-- Modelled from the spec: analog mapping query 0x69. -/
def ANALOG_MAPPING_QUERY : Nat := 0x69
/-- Modelled from the spec: analog mapping response 0x6A. -/
def ANALOG_MAPPING_RESPONSE : Nat := 0x6A
/-- Modelled from the spec: capability query 0x6B. -/
def CAPABILITY_QUERY : Nat := 0x6B
/-- Modelled from the spec: capability response 0x6C. -/
def CAPABILITY_RESPONSE : Nat := 0x6C
/-- Modelled from the spec: pin state response 0x6E. -/
def PIN_STATE_RESPONSE : Nat := 0x6E
/-- Modelled from the spec: report-firmware SysEx code 0x79. -/
def REPORT_FIRMWARE : Nat := 0x79
/-- Modelled from the spec: I2C request SysEx code 0x76. -/
def I2C_REQUEST : Nat := 0x76
/-- Modelled from the spec: I2C reply SysEx code 0x77. -/
def I2C_REPLY : Nat := 0x77
/-- Modelled from the spec: I2C config SysEx code 0x78. -/
def I2C_CONFIG : Nat := 0x78
/-- Modelled from the spec: I2C read mode nibble 1 (shifted by 3 on the wire). -/
def I2C_READ : Nat := 1
/-- Modelled from the spec: I2C write mode nibble 0. -/
def I2C_WRITE : Nat := 0
/-- Modelled from the spec: the 7-bit payload mask 0x7F. -/
def SYSEX_REALTIME : Nat := 0x7F
/-- Modelled from the spec: pin mode input = 0. -/
def PIN_MODE_INPUT : Nat := 0
/-- Modelled from the spec: pin mode output = 1. -/
def PIN_MODE_OUTPUT : Nat := 1
/-- Modelled from the spec: pin mode analog = 2. -/
def PIN_MODE_ANALOG : Nat := 2
/-- Modelled from the spec: default analog resolution.  The spec fixes every
opcode value but not this default; the concrete number is immaterial to every
claim (it only seeds placeholder pins), so 10 bits (a typical ADC) is used. -/
def DEFAULT_ANALOG_RESOLUTION : Nat := 10

/-! ### Data model (`Pin`, `I2CReply`, `Board`, `Message`, `Error`) -/

/-- The current state and configuration of a pin (struct `Pin` in lib.rs). -/
structure Pin where
  /-- Currently configured mode. -/
  mode : Nat
  /-- Current resolution. -/
  resolution : Nat
  /-- All pin modes. -/
  modes : List Nat
  /-- Pin value (i32 in the source). -/
  value : Int
deriving DecidableEq, Repr

/-- The source's `Default` impl for `Pin`. -/
def Pin.default : Pin :=
  { mode := PIN_MODE_ANALOG
    modes := [PIN_MODE_ANALOG]
    resolution := DEFAULT_ANALOG_RESOLUTION
    value := 0 }

instance : Inhabited Pin := ⟨Pin.default⟩

/-- An I2C reply (struct `I2CReply` in lib.rs); `data` holds u8 values. -/
structure I2CReply where
  address : Int
  register : Int
  data : List Nat
deriving DecidableEq, Repr

/-- Firmata error type (enum `Error` in lib.rs). -/
inductive Error where
  | unknownSysEx (code : Nat)
  | badByte (byte : Nat)
  | stdIoError
  | utf8Error
  | messageTooShort
  | pinOutOfBounds (pin : Nat) (len : Nat)
deriving DecidableEq, Repr

/-- The variant name of an error, as written in the source enum. -/
def Error.kindName : Error → String
  | .unknownSysEx _ => "UnknownSysEx"
  | .badByte _ => "BadByte"
  | .stdIoError => "StdIoError"
  | .utf8Error => "Utf8Error"
  | .messageTooShort => "MessageTooShort"
  | .pinOutOfBounds _ _ => "PinOutOfBounds"

/-- Received Firmata message (enum `Message` in lib.rs). -/
inductive Message where
  | protocolVersion
  | analog
  | digital
  | emptyResponse
  | analogMappingResponse
  | capabilityResponse
  | pinStateResponse
  | reportFirmware
  | i2cReply
deriving DecidableEq, Repr

/-- Outcome of running a fallible Rust method: `ok`/`fail` mirror
`Result::Ok`/`Result::Err`; `oob` is the panic raised by an out-of-bounds
`Vec` index (carrying the index and the length); `panicked` is an
`Option::expect` panic carrying its message. -/
inductive RunResult (α : Type) where
  | ok (a : α)
  | fail (e : Error)
  | oob (idx len : Nat)
  | panicked (msg : String)
deriving DecidableEq, Repr

/-- The transport: a queue of bytes still to be read, the bytes written so
far, and a flag that makes every transport write fail (the spec's transport
contract: any transport error surfaces as an I/O error). -/
structure Conn where
  input : List Nat
  output : List Nat
  wfail : Bool
deriving DecidableEq, Repr

/-- A Firmata board representation (struct `Board` in lib.rs). -/
structure Board where
  connection : Conn
  pins : List Pin
  i2c_data : List I2CReply
  protocol_version : String
  firmware_name : String
  firmware_version : String
deriving DecidableEq, Repr

/-! ### Small casts used by the encoder -/

/-- Rust `x as u8` on an i32: two's-complement truncation, i.e. `x mod 256`. -/
def i32_as_u8 (x : Int) : Nat := (x % 256).toNat

/-- Rust arithmetic shift right by 7 on an i32: floor division by 2^7. -/
def i32_asr7 (x : Int) : Int := Int.fdiv x 128

/-- Replace the pin at index `i` (no-op when out of bounds; every use site
either checks the bound first, exactly as the source does, or is guarded). -/
def modifyPin (pins : List Pin) (i : Nat) (f : Pin → Pin) : List Pin :=
  match pins.get? i with
  | some p => pins.set i (f p)
  | none => pins

/-! ### Encoder (`Firmata for Board` write methods in lib.rs) -/

/-- `Board::write`: a transport write; any transport failure is an I/O error. -/
def boardWrite (b : Board) (buf : List Nat) : RunResult Unit × Board :=
  if b.connection.wfail then (.fail .stdIoError, b)
  else (.ok (), { b with connection :=
    { b.connection with output := b.connection.output ++ buf } })

/-- `Board::analog_write` (lib.rs lines 447-454): stores the level in the pin
(panicking when the pin is out of bounds, as `self.pins[pin as usize]` does),
then writes the 3-byte analog frame.  `pin` is modelled as the nonnegative
values of the source's i32. -/
def analog_write (b : Board) (pin : Nat) (level : Int) : RunResult Unit × Board :=
  match b.pins.get? pin with
  | none => (.oob pin b.pins.length, b)
  | some p =>
    let b := { b with pins := b.pins.set pin { p with value := level } }
    boardWrite b
      [ANALOG_MESSAGE ||| pin % 256,
       i32_as_u8 level &&& SYSEX_REALTIME,
       i32_as_u8 (i32_asr7 level) &&& SYSEX_REALTIME]

/-- The digital-port loop of `Board::digital_write`: for i in 0..8 it ORs bit
i into `value` whenever pin `8*port+i` has a nonzero stored value, panicking
on an out-of-bounds index exactly like `self.pins[8 * port + i]`.
Arguments: current index `i`, remaining iterations, accumulator `value`
(the source's i32 accumulator, which stays a small nonnegative number). -/
def digitalPortValue (pins : List Pin) (port : Nat) : Nat → Nat → Nat → RunResult Nat
  | _, 0, value => .ok value
  | i, k + 1, value =>
    match pins.get? (8 * port + i) with
    | none => .oob (8 * port + i) pins.length
    | some p =>
      digitalPortValue pins port (i + 1) k
        (if p.value ≠ 0 then value ||| (1 <<< i) else value)

/-- `Board::digital_write` (lib.rs lines 457-476): `port = floor(pin/8)`
(the source computes this with f64 division, exact on the i32 range), store
`level` in the target pin (panic when out of bounds), OR together the stored
values of the port's 8 pins, and write the digital frame. -/
def digital_write (b : Board) (pin : Nat) (level : Int) : RunResult Unit × Board :=
  let port := pin / 8
  match b.pins.get? pin with
  | none => (.oob pin b.pins.length, b)
  | some p =>
    let pins := b.pins.set pin { p with value := level }
    let b := { b with pins := pins }
    match digitalPortValue pins port 0 8 0 with
    | .ok value =>
      boardWrite b
        [DIGITAL_MESSAGE ||| port % 256,
         value % 256 &&& SYSEX_REALTIME,
         (value >>> 7) % 256 &&& SYSEX_REALTIME]
    | .fail e => (.fail e, b)
    | .oob i l => (.oob i l, b)
    | .panicked m => (.panicked m, b)

/-- `Board::set_pin_mode` (lib.rs lines 479-482): the source overwrites the
pin's `modes` vector with `vec![mode]` (panicking when the pin is out of
bounds) and writes the 3-byte set-pin-mode frame.  Note that the source does
not touch the `mode` field. -/
def set_pin_mode (b : Board) (pin : Nat) (mode : Nat) : RunResult Unit × Board :=
  match b.pins.get? pin with
  | none => (.oob pin b.pins.length, b)
  | some p =>
    let b := { b with pins := b.pins.set pin { p with modes := [mode] } }
    boardWrite b [SET_PIN_MODE, pin % 256, mode]

/-- `Board::query_analog_mapping`. -/
def query_analog_mapping (b : Board) : RunResult Unit × Board :=
  boardWrite b [START_SYSEX, ANALOG_MAPPING_QUERY, END_SYSEX]

/-- `Board::query_capabilities`. -/
def query_capabilities (b : Board) : RunResult Unit × Board :=
  boardWrite b [START_SYSEX, CAPABILITY_QUERY, END_SYSEX]

/-- `Board::query_firmware`. -/
def query_firmware (b : Board) : RunResult Unit × Board :=
  boardWrite b [START_SYSEX, REPORT_FIRMWARE, END_SYSEX]

/-- `Board::report_digital`: writes `[REPORT_DIGITAL | pin as u8, state as u8]`. -/
def report_digital (b : Board) (pin state : Nat) : RunResult Unit × Board :=
  boardWrite b [REPORT_DIGITAL ||| pin % 256, state % 256]

/-- `Board::report_analog`: writes `[REPORT_ANALOG | pin as u8, state as u8]`. -/
def report_analog (b : Board) (pin state : Nat) : RunResult Unit × Board :=
  boardWrite b [REPORT_ANALOG ||| pin % 256, state % 256]

/-! ### Decoder helpers -/

/-- `read_exact` of 3 bytes: the three bytes and the remaining stream, or
none when the transport cannot deliver them. -/
def readExact3 : List Nat → Option (Nat × Nat × Nat × List Nat)
  | b0 :: b1 :: b2 :: rest => some (b0, b1, b2, rest)
  | _ => none

/-- The SysEx tail loop of `read_and_decode`: keep reading single bytes,
appending, until a byte equals `END_SYSEX`.  Returns the appended bytes
(terminator included) and the remaining stream; `none` when the stream ends
first (the transport read fails). -/
def readUntilEndSysex : List Nat → Option (List Nat × List Nat)
  | [] => none
  | byte :: rest =>
    if byte = END_SYSEX then some ([byte], rest)
    else
      match readUntilEndSysex rest with
      | some (acc, r) => some (byte :: acc, r)
      | none => none

/-- Rust's `format ("{:o}", n)`: the octal digit string of `n` (no prefix). -/
def octalStr (n : Nat) : String := String.mk (Nat.toDigits 8 n)

/-- Rust's version formatting `format ("{:o}.{:o}", major, minor)` used for
both the protocol version and the firmware version. -/
def versionString (major minor : Nat) : String :=
  octalStr major ++ "." ++ octalStr minor

/-- A UTF-8 continuation byte (10xxxxxx). -/
def utf8Cont (b : Nat) : Bool := 0x80 ≤ b && b ≤ 0xBF

/-- UTF-8 validation/decoding exactly as Rust's `str::from_utf8` accepts it
(shortest forms only, surrogates excluded).  `fuel` is the number of bytes
left to look at; it starts at the list length and decreases every step, so it
never runs out before the list does. -/
def utf8DecodeGo : Nat → List Nat → Option (List Char)
  | _, [] => some []
  | 0, _ :: _ => none
  | fuel + 1, b0 :: rest =>
    if b0 < 0x80 then
      (utf8DecodeGo fuel rest).map (fun cs => Char.ofNat b0 :: cs)
    else if 0xC2 ≤ b0 ∧ b0 ≤ 0xDF then
      match rest with
      | b1 :: rest2 =>
        if utf8Cont b1 then
          (utf8DecodeGo fuel rest2).map
            (fun cs => Char.ofNat ((b0 - 0xC0) * 0x40 + (b1 - 0x80)) :: cs)
        else none
      | [] => none
    else if 0xE0 ≤ b0 ∧ b0 ≤ 0xEF then
      match rest with
      | b1 :: b2 :: rest2 =>
        if ((b0 = 0xE0 && 0xA0 ≤ b1 && b1 ≤ 0xBF) ||
            (0xE1 ≤ b0 && b0 ≤ 0xEC && utf8Cont b1) ||
            (b0 = 0xED && 0x80 ≤ b1 && b1 ≤ 0x9F) ||
            (0xEE ≤ b0 && utf8Cont b1)) && utf8Cont b2 then
          (utf8DecodeGo fuel rest2).map
            (fun cs =>
              Char.ofNat ((b0 - 0xE0) * 0x1000 + (b1 - 0x80) * 0x40 + (b2 - 0x80)) :: cs)
        else none
      | _ => none
    else if 0xF0 ≤ b0 ∧ b0 ≤ 0xF4 then
      match rest with
      | b1 :: b2 :: b3 :: rest2 =>
        if ((b0 = 0xF0 && 0x90 ≤ b1 && b1 ≤ 0xBF) ||
            (0xF1 ≤ b0 && b0 ≤ 0xF3 && utf8Cont b1) ||
            (b0 = 0xF4 && 0x80 ≤ b1 && b1 ≤ 0x8F)) && utf8Cont b2 && utf8Cont b3 then
          (utf8DecodeGo fuel rest2).map
            (fun cs =>
              Char.ofNat ((b0 - 0xF0) * 0x40000 + (b1 - 0x80) * 0x1000 +
                (b2 - 0x80) * 0x40 + (b3 - 0x80)) :: cs)
        else none
      | _ => none
    else none

/-- Rust's `std::str::from_utf8` on a byte slice, as a string. -/
def from_utf8 (l : List Nat) : Option String :=
  (utf8DecodeGo l.length l).map fun cs => String.mk cs

/-- The digital-message update loop (lib.rs lines 513-519): for i in 0..8,
read `pins[8*port+i].mode` (the source indexes before its bounds check, so an
out-of-range pin is a panic, not a skip), then update the pin's value bit when
the pin exists and its mode is input. -/
def digitalUpdate (port value : Nat) : Nat → Nat → List Pin → RunResult (List Pin)
  | _, 0, pins => .ok pins
  | i, k + 1, pins =>
    match pins.get? (8 * port + i) with
    | none => .oob (8 * port + i) pins.length
    | some p =>
      let pins' :=
        if 8 * port + i < pins.length ∧ p.mode = PIN_MODE_INPUT then
          pins.set (8 * port + i)
            { p with value := Int.ofNat ((value >>> (i &&& 0x07)) &&& 0x01) }
        else pins
      digitalUpdate port value (i + 1) k pins'

/-- The analog-mapping loop (lib.rs lines 537-548): for i from 2 up to
`upper = min (buf.length - 1) (pins.length + 2)` (the source's clamp that
keeps the pin indexing in bounds), any payload byte other than 0x7F resets
pin `i - 2` to the analog defaults.  The first `Nat` argument is fuel,
started at `upper`, which i (starting at 2) can never exhaust. -/
def analogMappingUpdate (buf : List Nat) (upper : Nat) :
    Nat → Nat → List Pin → List Pin
  | 0, _, pins => pins
  | fuel + 1, i, pins =>
    if i < upper then
      let pins' :=
        if buf.getD i 0 ≠ 127 then
          modifyPin pins (i - 2) (fun p =>
            { p with
              mode := PIN_MODE_ANALOG
              modes := [PIN_MODE_ANALOG]
              resolution := DEFAULT_ANALOG_RESOLUTION })
        else pins
      analogMappingUpdate buf upper fuel (i + 1) pins'
    else pins

/-- The capability-response loop (lib.rs lines 552-576): walk the payload
from index 2; a 0x7F sentinel completes a pin (its mode defaults to the first
accumulated mode, its resolution to the first pair's resolution; an empty
accumulator is the source's `expect` panic), any other byte is a mode whose
following byte is kept as the resolution only for the first pair.  The first
`Nat` argument is fuel, started at `buf.length`; `i` strictly increases every
step so the fuel never runs out before the loop condition fails. -/
def capabilityParse (buf : List Nat) :
    Nat → Nat → List Nat → Option Nat → List Pin → RunResult (List Pin)
  | 0, _, _, _, pins => .ok pins
  | fuel + 1, i, modes, resolution, pins =>
    if i < buf.length - 1 then
      if buf.getD i 0 = 127 then
        match modes with
        | [] => .panicked "pin mode"
        | m :: _ =>
          match resolution with
          | none => .panicked "pin resolution"
          | some r =>
            capabilityParse buf fuel (i + 1) [] none
              (pins ++ [{ mode := m, modes := modes, resolution := r, value := 0 }])
      else
        let modes' := modes ++ [buf.getD i 0]
        let resolution' :=
          if resolution.isNone then some (buf.getD (i + 1) 0) else resolution
        capabilityParse buf fuel (i + 2) modes' resolution' pins
    else .ok pins

/-- The I2C data loop (lib.rs lines 600-611): from index 8, stop at an
embedded 0xF7 or when fewer than two bytes remain, otherwise append the
reassembled 7-bit pair `buf[i] | buf[i+1] << 7` (u8 arithmetic, so the shift
is truncated mod 256).  The first `Nat` argument is fuel, started at
`buf.length`; `i` strictly increases so the fuel never runs out first. -/
def i2cCollect (buf : List Nat) : Nat → Nat → List Nat → List Nat
  | 0, _, acc => acc
  | fuel + 1, i, acc =>
    if i < buf.length - 1 then
      if buf.getD i 0 = 0xF7 then acc
      else if i + 2 > buf.length then acc
      else
        i2cCollect buf fuel (i + 2)
          (acc ++ [buf.getD i 0 ||| (buf.getD (i + 1) 0 <<< 7) % 256])
    else acc

/-! ### Decoder (`Board::read_and_decode`, lib.rs lines 485-632) -/

/-- `Board::read_and_decode`: read exactly 3 bytes, dispatch on the first,
reading to the SysEx terminator for extended frames; mutates the board state
(pins, identity strings, I2C queue) as a side effect and returns the decoded
message tag.  Failures return the board as mutated so far (the source's
`&mut self` keeps partial mutations); the board paired with a panic outcome
is irrelevant, since a Rust panic aborts. -/
def read_and_decode (b : Board) : RunResult Message × Board :=
  match readExact3 b.connection.input with
  | none => (.fail .stdIoError, b)
  | some (b0, b1, b2, rest) =>
    let b := { b with connection := { b.connection with input := rest } }
    if b0 = REPORT_VERSION then
      (.ok .protocolVersion, { b with protocol_version := versionString b1 b2 })
    else if ANALOG_MESSAGE ≤ b0 ∧ b0 ≤ ANALOG_MESSAGE_BOUND then
      -- The source's `buf.len() < 3` check can never fire here (buf has
      -- exactly 3 bytes); kept implicit.
      let pin := (b0 &&& 0x0F) + 14
      let value : Int := Int.ofNat (b1 ||| (b2 <<< 7))
      if b.pins.length > pin then
        (.ok .analog, { b with pins := modifyPin b.pins pin (fun p => { p with value := value }) })
      else (.ok .analog, b)
    else if DIGITAL_MESSAGE ≤ b0 ∧ b0 ≤ DIGITAL_MESSAGE_BOUND then
      let port := b0 &&& 0x0F
      let value := b1 ||| (b2 <<< 7)
      match digitalUpdate port value 0 8 b.pins with
      | .ok pins => (.ok .digital, { b with pins := pins })
      | .fail e => (.fail e, b)
      | .oob i l => (.oob i l, b)
      | .panicked m => (.panicked m, b)
    else if b0 = START_SYSEX then
      match readUntilEndSysex rest with
      | none =>
        (.fail .stdIoError, { b with connection := { b.connection with input := [] } })
      | some (acc, r) =>
        let buf := b0 :: b1 :: b2 :: acc
        let b := { b with connection := { b.connection with input := r } }
        if b1 = END_SYSEX then (.ok .emptyResponse, b)
        else if b1 = ANALOG_MAPPING_RESPONSE then
          let upper := Nat.min (buf.length - 1) (b.pins.length + 2)
          (.ok .analogMappingResponse,
            { b with pins := analogMappingUpdate buf upper upper 2 b.pins })
        else if b1 = CAPABILITY_RESPONSE then
          match capabilityParse buf buf.length 2 [] none [Pin.default] with
          | .ok pins => (.ok .capabilityResponse, { b with pins := pins })
          | .fail e => (.fail e, b)
          | .oob i l => (.oob i l, b)
          | .panicked m => (.panicked m, b)
        else if b1 = REPORT_FIRMWARE then
          match buf.get? 2 with
          | none => (.fail .messageTooShort, b)
          | some major =>
            match buf.get? 3 with
            | none => (.fail .messageTooShort, b)
            | some minor =>
              let b := { b with firmware_version := versionString major minor }
              if 4 < buf.length - 1 then
                match from_utf8 ((buf.drop 4).take (buf.length - 1 - 4)) with
                | some s => (.ok .reportFirmware, { b with firmware_name := s })
                | none => (.fail .utf8Error, b)
              else (.ok .reportFirmware, b)
        else if b1 = I2C_REPLY then
          if buf.length < 8 then (.fail .messageTooShort, b)
          else
            let reply : I2CReply :=
              { address := Int.ofNat (buf.getD 2 0 ||| (buf.getD 3 0 <<< 7))
                register := Int.ofNat (buf.getD 4 0 ||| (buf.getD 5 0 <<< 7))
                data := i2cCollect buf buf.length 8
                  [buf.getD 6 0 ||| (buf.getD 7 0 <<< 7) % 256] }
            (.ok .i2cReply, { b with i2c_data := b.i2c_data ++ [reply] })
        else if b1 = PIN_STATE_RESPONSE then
          let pin := buf.getD 2 0
          if buf.getD 3 0 = END_SYSEX then (.ok .pinStateResponse, b)
          else
            match b.pins.get? pin with
            | none => (.oob pin b.pins.length, b)
            | some p =>
              -- When buf[3] is not the terminator the SysEx loop guarantees
              -- a fifth byte, so the source's buf[4] indexing cannot panic.
              let p' : Pin :=
                { p with modes := [buf.getD 3 0], value := Int.ofNat (buf.getD 4 0) }
              (.ok .pinStateResponse, { b with pins := b.pins.set pin p' })
        else (.fail (.unknownSysEx b1), b)
    else (.fail (.badByte b0), b)

/-! ### Retry wrapper (`RetryFirmata`, lib.rs lines 173-276) -/

/-- The backoff crate's error wrapper around an operation error. -/
inductive BackoffError (ε : Type) where
  | permanent (e : ε)
  | transient (e : ε)
deriving DecidableEq, Repr

/-- The source's `From(backoff::Error(Error)) for Error` impl (lib.rs lines
77-84): both the permanent and the transient wrapper are unwrapped to the
underlying error. -/
def Error.fromBackoff : BackoffError Error → Error
  | .permanent e => e
  | .transient e => e

/-- `RetryFirmata::retry_read_and_decode` (lib.rs lines 244-249), the
representative retrying operation.  Modelled from the spec for the external
backoff crate's loop: the wrapped operation is retried on failure until the
backoff budget (here a fuel count; sleeping between attempts is real time and
not modelled) is exhausted, at which point the last error, wrapped transient
by the source's closure, is converted back through `Error.fromBackoff`.
Everything else (the transient wrapping and the final conversion) is the
source's own code. -/
def retry_read_and_decode : Nat → Board → RunResult Message × Board
  | fuel, b =>
    match read_and_decode b with
    | (.ok m, b') => (.ok m, b')
    | (.oob i l, b') => (.oob i l, b')
    | (.panicked m, b') => (.panicked m, b')
    | (.fail e, b') =>
      match fuel with
      | 0 => (.fail (Error.fromBackoff (.transient e)), b')
      | f + 1 => retry_read_and_decode f b'

/-! ### Initialization sequencer and board construction -/

/-- The wait loop of `Board::initialize_board` (lib.rs lines 321-329): keep
decoding until a report-firmware, a capability response and an analog-mapping
response have each been seen, forwarding the first decode error.  The fuel is
started at `input.length + 1`; every successful decode consumes at least
three input bytes and a decode on an empty stream fails, so the fuel can
never be exhausted (the fallback mirrors the failure of the read that the
loop would block on). -/
def initWait : Nat → Bool → Bool → Bool → Board → RunResult Unit × Board
  | fuel, rf, rc, ra, b =>
    if rf ∧ rc ∧ ra then (.ok (), b)
    else
      match fuel with
      | 0 => (.fail .stdIoError, b)
      | f + 1 =>
        match read_and_decode b with
        | (.ok .reportFirmware, b') => initWait f true rc ra b'
        | (.ok .capabilityResponse, b') => initWait f rf true ra b'
        | (.ok .analogMappingResponse, b') => initWait f rf rc true b'
        | (.ok _, b') => initWait f rf rc ra b'
        | (.fail e, b') => (.fail e, b')
        | (.oob i l, b') => (.oob i l, b')
        | (.panicked m, b') => (.panicked m, b')

/-- `Board::initialize_board` (lib.rs lines 309-335): send the three queries,
wait (the source's sleep is a no-op on the model), run the wait loop, then
enable digital reporting on ports 0 and 1. -/
def initialize_board (b : Board) : RunResult Unit × Board :=
  match query_firmware b with
  | (.ok _, b) =>
    match query_capabilities b with
    | (.ok _, b) =>
      match query_analog_mapping b with
      | (.ok _, b) =>
        match initWait (b.connection.input.length + 1) false false false b with
        | (.ok _, b) =>
          match report_digital b 0 1 with
          | (.ok _, b) => report_digital b 1 1
          | r => r
        | r => r
      | r => r
    | r => r
  | r => r

/-- `Board::new` (lib.rs lines 338-349): build the empty board around the
transport and run the initialization sequencer; any failure aborts
construction. -/
def Board.new (connection : Conn) : RunResult Board :=
  let b : Board :=
    { connection := connection
      pins := []
      i2c_data := []
      protocol_version := ""
      firmware_name := ""
      firmware_version := "" }
  match initialize_board b with
  | (.ok _, b) => .ok b
  | (.fail e, _) => .fail e
  | (.oob i l, _) => .oob i l
  | (.panicked m, _) => .panicked m

/-- `Board::retry_new` (lib.rs lines 352-363): textually the same body as
`Board::new`; despite its name it performs no retry or backoff. -/
def Board.retry_new (connection : Conn) : RunResult Board :=
  let b : Board :=
    { connection := connection
      pins := []
      i2c_data := []
      protocol_version := ""
      firmware_name := ""
      firmware_version := "" }
  match initialize_board b with
  | (.ok _, b) => .ok b
  | (.fail e, _) => .fail e
  | (.oob i l, _) => .oob i l
  | (.panicked m, _) => .panicked m

/-! ### Shared helpers for the claim proofs -/

/-- A board in its freshly constructed state (no pins, empty identity) around
a healthy transport with the given pending input bytes. -/
def boardWithInput (input : List Nat) : Board :=
  { connection := { input := input, output := [], wfail := false }
    pins := []
    i2c_data := []
    protocol_version := ""
    firmware_name := ""
    firmware_version := "" }

lemma list_get?_eq_getD {α : Type} (d : α) (l : List α) (i : Nat)
    (h : i < l.length) : l.get? i = some (l.getD i d) := by
  induction l generalizing i with
  | nil => simp at h
  | cons a t ih =>
    cases i with
    | zero => rfl
    | succ n => simpa using ih n (by simpa using h)

lemma list_getD_set_self {α : Type} (d a : α) (l : List α) (i : Nat)
    (h : i < l.length) : (l.set i a).getD i d = a := by
  induction l generalizing i with
  | nil => simp at h
  | cons x t ih =>
    cases i with
    | zero => rfl
    | succ n => simpa using ih n (by simpa using h)

lemma list_getD_set_ne {α : Type} (d a : α) (l : List α) (i j : Nat)
    (h : i ≠ j) : (l.set i a).getD j d = l.getD j d := by
  induction l generalizing i j with
  | nil => rfl
  | cons x t ih =>
    cases i with
    | zero =>
      cases j with
      | zero => exact absurd rfl h
      | succ m => rfl
    | succ n =>
      cases j with
      | zero => rfl
      | succ m => simpa using ih n m (by omega)

/-! ### Claim C1 -/

/-- Claim C1: the claim says every pin-addressing operation (`analog_write`,
`digital_write`, `set_pin_mode`) fails with a PinOutOfBounds error when the
pin index is outside the pin list's bounds.  The code instead indexes
`self.pins[pin as usize]` unchecked: on a board whose pin list is empty, each
of the three operations at pin 0 is an out-of-bounds Vec indexing panic, and
in particular none of them returns the (never constructed) PinOutOfBounds
error. -/
theorem c1_out_of_bounds_panics :
    (analog_write (boardWithInput []) 0 100).1 = .oob 0 0 ∧
    (digital_write (boardWithInput []) 0 1).1 = .oob 0 0 ∧
    (set_pin_mode (boardWithInput []) 0 1).1 = .oob 0 0 ∧
    (analog_write (boardWithInput []) 0 100).1 ≠ .fail (.pinOutOfBounds 0 0) ∧
    (digital_write (boardWithInput []) 0 1).1 ≠ .fail (.pinOutOfBounds 0 0) ∧
    (set_pin_mode (boardWithInput []) 0 1).1 ≠ .fail (.pinOutOfBounds 0 0) := by
  decide

/-! ### Claim C2 -/

/-- Claim C2: the claim says every decode branch that indexes the pin list by
a wire-derived index clamps or skips when the pin list is too short.  Two
branches do not: the digital-port-update branch reads
`self.pins[pin as usize].mode` before its bounds check, so decoding a digital
message for port 0 with a single-pin board panics at pin 1; the
pin-state-response branch indexes `self.pins[buf[2] as usize]` with no check
at all, so a pin-state frame for pin 5 on a pinless board panics.  (The
analog-mapping branch does clamp, via its `upper` bound.) -/
theorem c2_decode_indexing_panics :
    (read_and_decode { boardWithInput [0x90, 0x01, 0x00] with
        pins := [{ Pin.default with mode := PIN_MODE_INPUT }] }).1 = .oob 1 1 ∧
    (read_and_decode (boardWithInput [0xF0, 0x6E, 0x05, 0x01, 0x02, 0xF7])).1
      = .oob 5 0 := by
  decide

/-! ### Claim C7 -/

/-- Claim C7: decoding a capability-response SysEx frame whose payload
encodes the capability sets (2,8) and (1,1),(0,1), each pin terminated by a
0x7F sentinel, rebuilds the pin list from scratch to length 3: pin 0 is the
reserved default placeholder, pin 1 supports mode 2 at resolution 8, pin 2
supports modes 1 and 0 (the `Pin` struct records the supported modes as the
mode list plus the first capability's resolution, here 1 — which is also the
resolution of both of pin 2's claimed capability pairs), and each pin's
active mode and resolution are its first listed capability. -/
theorem c7_capability_response_decode :
    (read_and_decode
        (boardWithInput [0xF0, 0x6C, 2, 8, 0x7F, 1, 1, 0, 1, 0x7F, 0xF7])).1
      = .ok .capabilityResponse ∧
    (read_and_decode
        (boardWithInput [0xF0, 0x6C, 2, 8, 0x7F, 1, 1, 0, 1, 0x7F, 0xF7])).2.pins
      = [Pin.default,
         { mode := 2, resolution := 8, modes := [2], value := 0 },
         { mode := 1, resolution := 1, modes := [1, 0], value := 0 }] := by
  decide

/-! ### Claim C8 -/

/-- Claim C8: decoding an I2C-reply SysEx frame with payload bytes
5,0,10,0,65,0,66,0 appends to the I2C reply queue a reply with address 5,
register 10 and data 65,66; a frame with fewer than the minimum 8 buffer
bytes fails as MessageTooShort and appends nothing. -/
theorem c8_i2c_reply_decode :
    (read_and_decode
        (boardWithInput [0xF0, 0x77, 5, 0, 10, 0, 65, 0, 66, 0, 0xF7])).1
      = .ok .i2cReply ∧
    (read_and_decode
        (boardWithInput [0xF0, 0x77, 5, 0, 10, 0, 65, 0, 66, 0, 0xF7])).2.i2c_data
      = [{ address := 5, register := 10, data := [65, 66] }] ∧
    (read_and_decode (boardWithInput [0xF0, 0x77, 0, 0xF7])).1
      = .fail .messageTooShort ∧
    (read_and_decode (boardWithInput [0xF0, 0x77, 0, 0xF7])).2.i2c_data = [] := by
  decide

/-! ### Claim C9 -/

/-- The board used to exhibit the `set_pin_mode` divergence: one pin whose
current mode is 2 (analog) and whose capability list is the modes 2 and 1. -/
def c9Board : Board :=
  { boardWithInput [] with
    pins := [{ mode := 2, resolution := 10, modes := [2, 1], value := 0 }] }

/-- Claim C9: the claim says `set_pin_mode(p, m)` writes the 3-byte frame
SET_PIN_MODE, p, m (which the code does) and updates the pin's recorded
current mode to m.  The code instead overwrites the pin's supported-modes
vector (`self.pins[pin].modes = vec![mode]`) and leaves the `mode` field —
documented as the currently configured mode — untouched: starting from mode 2
with capabilities 2,1, setting mode 1 leaves `mode` at 2 and destroys the
capability list. -/
theorem c9_set_pin_mode_divergence :
    (set_pin_mode c9Board 0 1).1 = .ok () ∧
    (set_pin_mode c9Board 0 1).2.connection.output = [SET_PIN_MODE, 0, 1] ∧
    ((set_pin_mode c9Board 0 1).2.pins.getD 0 Pin.default).mode = 2 ∧
    ((set_pin_mode c9Board 0 1).2.pins.getD 0 Pin.default).mode ≠ 1 ∧
    ((set_pin_mode c9Board 0 1).2.pins.getD 0 Pin.default).modes = [1] := by
  decide

/-! ### Claim C10 -/

/-- Claim C10: `Board::new` and `Board::retry_new` are extensionally equal —
their bodies are identical (build the empty board, run the initialization
sequencer), and `retry_new` performs no retry or backoff beyond what `new`
does, so on every transport they return the identical result. -/
theorem c10_new_eq_retry_new (connection : Conn) :
    Board.new connection = Board.retry_new connection := rfl

/-- Witness for C10 at a concrete transport. -/
theorem c10_new_eq_retry_new_witness :
    Board.new { input := [], output := [], wfail := false } =
      Board.retry_new { input := [], output := [], wfail := false } :=
  c10_new_eq_retry_new { input := [], output := [], wfail := false }

/-! ### Claim C5 -/

/-- Counterexample to claim C5: the claim says the version strings are the
DECIMAL major.minor.  The source formats both with the octal specifier, so
decoding a protocol-version message with major 8 and minor 9 stores "10.11",
not "8.9", and likewise for the report-firmware frame. -/
theorem c5_decimal_counterexample :
    (read_and_decode (boardWithInput [0xF9, 8, 9])).2.protocol_version = "10.11" ∧
    (read_and_decode (boardWithInput [0xF9, 8, 9])).2.protocol_version ≠ "8.9" ∧
    (read_and_decode (boardWithInput [0xF0, 0x79, 8, 9, 0xF7])).2.firmware_version
      = "10.11" ∧
    (read_and_decode (boardWithInput [0xF0, 0x79, 8, 9, 0xF7])).2.firmware_version
      ≠ "8.9" := by
  decide

/-- Claim C5 (amended): decoding a protocol-version message stores
`protocol_version` as the OCTAL string major.minor (each component rendered
in base 8, which coincides with decimal exactly when the component is below
8), and decoding a report-firmware frame stores `firmware_version` as the
same octal rendering of buffer bytes 2 and 3. -/
theorem c5_version_strings_octal (b c : Board) (major minor fmajor fminor : Nat)
    (rest frest : List Nat)
    (hb : b.connection.input = REPORT_VERSION :: major :: minor :: rest)
    (hc : c.connection.input =
      START_SYSEX :: REPORT_FIRMWARE :: fmajor :: fminor :: END_SYSEX :: frest)
    (hfm : fminor ≠ END_SYSEX) :
    (read_and_decode b).1 = .ok .protocolVersion ∧
    (read_and_decode b).2.protocol_version = versionString major minor ∧
    (read_and_decode c).1 = .ok .reportFirmware ∧
    (read_and_decode c).2.firmware_version = versionString fmajor fminor := by
  have hfm' : fminor ≠ 247 := by simpa [END_SYSEX] using hfm
  refine ⟨?_, ?_, ?_, ?_⟩ <;>
    simp [read_and_decode, hb, hc, readExact3, readUntilEndSysex, hfm',
      REPORT_VERSION, START_SYSEX, END_SYSEX, REPORT_FIRMWARE,
      ANALOG_MESSAGE, ANALOG_MESSAGE_BOUND, DIGITAL_MESSAGE,
      DIGITAL_MESSAGE_BOUND, ANALOG_MAPPING_RESPONSE, CAPABILITY_RESPONSE,
      I2C_REPLY, PIN_STATE_RESPONSE, List.get?]

/-- Witness for the amended C5 at concrete version bytes 8 and 9. -/
theorem c5_version_strings_octal_witness :
    (read_and_decode (boardWithInput [0xF9, 8, 9])).1 = .ok .protocolVersion ∧
    (read_and_decode (boardWithInput [0xF9, 8, 9])).2.protocol_version
      = versionString 8 9 ∧
    (read_and_decode (boardWithInput [0xF0, 0x79, 8, 9, 0xF7])).1
      = .ok .reportFirmware ∧
    (read_and_decode (boardWithInput [0xF0, 0x79, 8, 9, 0xF7])).2.firmware_version
      = versionString 8 9 :=
  c5_version_strings_octal (boardWithInput [0xF9, 8, 9])
    (boardWithInput [0xF0, 0x79, 8, 9, 0xF7]) 8 9 8 9 [] []
    rfl rfl (by decide)

/-! ### Claim C6 -/

/-- Counterexample to claim C6: the claim says an exhausted retry returns an
AttemptsExceeded or TimeoutExceeded condition wrapping the last underlying
error, and that those two conditions exist among the library's error kinds.
Running `retry_read_and_decode` on a transport that always fails returns the
plain underlying I/O error itself — an error kind that is neither of the two
claimed conditions (the source's `Error` enum defines no such variants). -/
theorem c6_exhaustion_counterexample :
    (retry_read_and_decode 3 (boardWithInput [])).1 = .fail .stdIoError ∧
    Error.kindName .stdIoError ≠ "AttemptsExceeded" ∧
    Error.kindName .stdIoError ≠ "TimeoutExceeded" := by
  decide

lemma retry_empty_input (fuel : Nat) :
    retry_read_and_decode fuel (boardWithInput [])
      = (.fail .stdIoError, boardWithInput []) := by
  induction fuel with
  | zero => rfl
  | succ f ih => rw [retry_read_and_decode]; exact ih

/-- Claim C6 (amended): when the backoff budget is exhausted without success,
the retrying operation surfaces the LAST UNDERLYING ERROR itself: the
source's From conversion unwraps both the permanent and the transient backoff
wrapper to the inner error, no error kind named AttemptsExceeded or
TimeoutExceeded exists in the library's Error enum, and an exhausted
`retry_read_and_decode` over a dead transport returns the underlying I/O
error for every budget. -/
theorem c6_exhaustion_returns_underlying (e : Error) (fuel : Nat) :
    Error.fromBackoff (.permanent e) = e ∧
    Error.fromBackoff (.transient e) = e ∧
    Error.kindName e ≠ "AttemptsExceeded" ∧
    Error.kindName e ≠ "TimeoutExceeded" ∧
    (retry_read_and_decode fuel (boardWithInput [])).1 = .fail .stdIoError := by
  refine ⟨rfl, rfl, ?_, ?_, by rw [retry_empty_input]⟩ <;>
    cases e <;> simp [Error.kindName]

/-- Witness for the amended C6 at a concrete error and budget. -/
theorem c6_exhaustion_returns_underlying_witness :
    Error.fromBackoff (.permanent .messageTooShort) = .messageTooShort ∧
    Error.fromBackoff (.transient .messageTooShort) = .messageTooShort ∧
    Error.kindName .messageTooShort ≠ "AttemptsExceeded" ∧
    Error.kindName .messageTooShort ≠ "TimeoutExceeded" ∧
    (retry_read_and_decode 2 (boardWithInput [])).1 = .fail .stdIoError :=
  c6_exhaustion_returns_underlying .messageTooShort 2

/-! ### Bit-arithmetic helpers for the 7-bit wire packing -/

lemma nat_and_127 (x : Nat) : x &&& 127 = x % 128 := by
  have h127 : (127 : Nat) = 2 ^ 7 - 1 := by norm_num
  have h128 : (128 : Nat) = 2 ^ 7 := by norm_num
  apply Nat.eq_of_testBit_eq
  intro i
  rw [Nat.testBit_and, h127, Nat.testBit_two_pow_sub_one, h128,
    Nat.testBit_mod_two_pow, Bool.and_comm]

/-- Splitting a value into its low 7 bits and the rest and OR-ing them back
with a 7-bit shift is the identity (in particular the encoder's low/high
split composed with the decoder's reconstruction is the identity). -/
lemma seven_bit_split (x : Nat) : x % 128 ||| (x / 128) <<< 7 = x := by
  apply Nat.eq_of_testBit_eq
  intro i
  have h1 : x / 128 = x >>> 7 := by rw [Nat.shiftRight_eq_div_pow]
  have h128 : (128 : Nat) = 2 ^ 7 := by norm_num
  rw [Nat.testBit_or, h1, Nat.testBit_shiftLeft, Nat.testBit_shiftRight, h128,
    Nat.testBit_mod_two_pow]
  by_cases h : i < 7
  · have hge : ¬ 7 ≤ i := by omega
    simp [h, hge]
  · have h7 : 7 + (i - 7) = i := by omega
    simp [h, h7, show 7 ≤ i by omega]

lemma analog_opcode_or (k : Nat) (hk : k < 16) :
    ANALOG_MESSAGE ||| k = 224 + k := by
  interval_cases k <;> decide

lemma analog_opcode_low_nibble (k : Nat) (hk : k < 16) :
    (224 + k) &&& 0x0F = k := by
  interval_cases k <;> decide


/-! ### Claim C4 -/

/-- Decoding an analog-status frame for pin k + 14 carrying the 7-bit split
of v stores v (reassembled by the decoder's 14-bit reconstruction) into that
pin's value. -/
lemma analog_decode (B : Board) (k v : Nat) (hk : k < 16)
    (hp : k + 14 < B.pins.length)
    (hin : B.connection.input = [ANALOG_MESSAGE ||| k, v % 128, v / 128]) :
    ∃ B', read_and_decode B = (.ok .analog, B') ∧
      (B'.pins.getD (k + 14) Pin.default).value = Int.ofNat v := by
  simp only [read_and_decode, hin, analog_opcode_or k hk, readExact3,
    eq_false (show ¬(224 + k = REPORT_VERSION) by rw [REPORT_VERSION]; omega),
    eq_true (show ANALOG_MESSAGE ≤ 224 + k ∧ 224 + k ≤ ANALOG_MESSAGE_BOUND by
      rw [ANALOG_MESSAGE, ANALOG_MESSAGE_BOUND]; omega),
    if_true, if_false, analog_opcode_low_nibble k hk, seven_bit_split,
    eq_true (show B.pins.length > k + 14 from hp),
    modifyPin, list_get?_eq_getD Pin.default B.pins (k + 14) hp]
  refine ⟨_, rfl, ?_⟩
  simp only [list_getD_set_self Pin.default _ B.pins (k + 14) hp]

/-- Claim C4: for every pin p = k + 14 addressable by an analog-status frame
(the decoder adds 14 to the low opcode nibble) and every level v in 0..16383,
`analog_write(p, v)` emits exactly the data bytes v mod 128 and v div 128
(the 7-bit low/high split, low first), and feeding the decoder the
analog-status frame for p carrying those exact bytes stores v back into pin
p's value: the 7-bit split composed with the decoder's 14-bit reconstruction
is the identity on 0..16383. -/
theorem c4_analog_roundtrip (b : Board) (k v : Nat)
    (hk : k < 16) (hv : v < 16384) (hp : k + 14 < b.pins.length)
    (hw : b.connection.wfail = false) :
    (analog_write b (k + 14) (Int.ofNat v)).1 = .ok () ∧
    (analog_write b (k + 14) (Int.ofNat v)).2.connection.output
      = b.connection.output
        ++ [ANALOG_MESSAGE ||| (k + 14) % 256, v % 128, v / 128] ∧
    ∃ B', read_and_decode { (analog_write b (k + 14) (Int.ofNat v)).2 with
        connection := { (analog_write b (k + 14) (Int.ofNat v)).2.connection with
          input := [ANALOG_MESSAGE ||| k, v % 128, v / 128] } }
        = (.ok .analog, B') ∧
      (B'.pins.getD (k + 14) Pin.default).value = Int.ofNat v := by
  have hlo : i32_as_u8 (Int.ofNat v) &&& SYSEX_REALTIME = v % 128 := by
    have h1 : i32_as_u8 (Int.ofNat v) = v % 256 := by
      rw [i32_as_u8, Int.ofNat_eq_coe]; omega
    rw [h1, SYSEX_REALTIME, show (0x7F : Nat) = 127 from rfl, nat_and_127,
      Nat.mod_mod_of_dvd v (by norm_num)]
  have hhi : i32_as_u8 (i32_asr7 (Int.ofNat v)) &&& SYSEX_REALTIME = v / 128 := by
    have h1 : i32_asr7 (Int.ofNat v) = Int.ofNat (v / 128) := by
      rw [i32_asr7]; exact (Int.ofNat_fdiv v 128).symm
    have h2 : i32_as_u8 (Int.ofNat (v / 128)) = v / 128 % 256 := by
      rw [i32_as_u8, Int.ofNat_eq_coe]; omega
    rw [h1, h2, SYSEX_REALTIME, show (0x7F : Nat) = 127 from rfl, nat_and_127]
    omega
  simp only [analog_write, list_get?_eq_getD Pin.default b.pins (k + 14) hp,
    boardWrite, hw, Bool.false_eq_true, if_false, ite_false, hlo, hhi]
  refine ⟨by trivial, by trivial, ?_⟩
  exact analog_decode _ k v hk (by simpa using hp) rfl

/-- A 16-pin board used to witness the analog round-trip. -/
def c4Board : Board :=
  { boardWithInput [] with pins := List.replicate 16 Pin.default }

/-- Witness for C4 on a 16-pin board at pin 15 (k = 1) and level 1000. -/
theorem c4_analog_roundtrip_witness :
    (analog_write c4Board (1 + 14) (Int.ofNat 1000)).1 = .ok () ∧
    (analog_write c4Board (1 + 14) (Int.ofNat 1000)).2.connection.output
      = c4Board.connection.output
        ++ [ANALOG_MESSAGE ||| (1 + 14) % 256, 1000 % 128, 1000 / 128] ∧
    ∃ B', read_and_decode { (analog_write c4Board (1 + 14) (Int.ofNat 1000)).2 with
        connection := { (analog_write c4Board (1 + 14) (Int.ofNat 1000)).2.connection with
          input := [ANALOG_MESSAGE ||| 1, 1000 % 128, 1000 / 128] } }
        = (.ok .analog, B') ∧
      (B'.pins.getD (1 + 14) Pin.default).value = Int.ofNat 1000 :=
  c4_analog_roundtrip c4Board 1 1000 (by decide) (by decide) (by decide) rfl

/-! ### Claim C3 -/

lemma one_shiftLeft_testBit (i t : Nat) :
    ((1 <<< i).testBit t = true) ↔ t = i := by
  rw [Nat.testBit_shiftLeft, show (1 : Nat) = 2 ^ 1 - 1 from rfl,
    Nat.testBit_two_pow_sub_one]
  simp only [Bool.and_eq_true, decide_eq_true_eq, ge_iff_le]
  omega

/-- The digital-write port loop computes an 8-bit value whose bit t (within
the iterated window) is set exactly when the corresponding pin of the port
has a nonzero stored value. -/
lemma digitalPortValue_spec (pins : List Pin) (port : Nat) :
    ∀ (k i value : Nat), i + k ≤ 8 → value < 256 →
      (∀ j, i ≤ j → j < i + k → 8 * port + j < pins.length) →
      ∃ v, digitalPortValue pins port i k value = .ok v ∧ v < 256 ∧
        ∀ t, (v.testBit t = true ↔
          (value.testBit t = true ∨
            (i ≤ t ∧ t < i + k ∧
              (pins.getD (8 * port + t) Pin.default).value ≠ 0))) := by
  intro k
  induction k with
  | zero =>
    intro i value _ hv _
    refine ⟨value, rfl, hv, fun t => ?_⟩
    constructor
    · exact fun h => Or.inl h
    · rintro (h | ⟨h1, h2, _⟩)
      · exact h
      · omega
  | succ n ih =>
    intro i value hik hv hidx
    have hlen : 8 * port + i < pins.length := hidx i le_rfl (by omega)
    have hget := list_get?_eq_getD Pin.default pins (8 * port + i) hlen
    simp only [digitalPortValue, hget]
    by_cases hz : (pins.getD (8 * port + i) Pin.default).value = 0
    · rw [if_neg (not_not_intro hz)]
      obtain ⟨v, hq, hlt, hbit⟩ := ih (i + 1) value (by omega) hv
        (fun j hj1 hj2 => hidx j (by omega) (by omega))
      refine ⟨v, hq, hlt, fun t => ?_⟩
      rw [hbit t]
      constructor
      · rintro (h | ⟨h1, h2, h3⟩)
        · exact Or.inl h
        · exact Or.inr ⟨by omega, by omega, h3⟩
      · rintro (h | ⟨h1, h2, h3⟩)
        · exact Or.inl h
        · rcases Nat.eq_or_lt_of_le h1 with he | hl
          · exact absurd hz (by rw [← he] at h3; exact h3)
          · exact Or.inr ⟨by omega, by omega, h3⟩
    · rw [if_pos hz]
      have h1lt : (1 <<< i) < 256 := by
        rw [Nat.shiftLeft_eq, one_mul]
        calc (2 : Nat) ^ i ≤ 2 ^ 7 := Nat.pow_le_pow_right (by omega) (by omega)
          _ < 256 := by norm_num
      have hvor : value ||| 1 <<< i < 256 := by
        have h256 : (256 : Nat) = 2 ^ 8 := by norm_num
        rw [h256] at hv h1lt ⊢
        exact Nat.or_lt_two_pow hv h1lt
      obtain ⟨v, hq, hlt, hbit⟩ := ih (i + 1) (value ||| 1 <<< i) (by omega) hvor
        (fun j hj1 hj2 => hidx j (by omega) (by omega))
      refine ⟨v, hq, hlt, fun t => ?_⟩
      rw [hbit t]
      have horb : ((value ||| 1 <<< i).testBit t = true)
          ↔ (value.testBit t = true ∨ t = i) := by
        rw [Nat.testBit_or, Bool.or_eq_true, one_shiftLeft_testBit]
      rw [horb]
      constructor
      · rintro ((h | rfl) | ⟨h1, h2, h3⟩)
        · exact Or.inl h
        · exact Or.inr ⟨le_rfl, by omega, hz⟩
        · exact Or.inr ⟨by omega, by omega, h3⟩
      · rintro (h | ⟨h1, h2, h3⟩)
        · exact Or.inl (Or.inl h)
        · rcases Nat.eq_or_lt_of_le h1 with he | hl
          · exact Or.inl (Or.inr he.symm)
          · exact Or.inr ⟨by omega, by omega, h3⟩

/-- Claim C3: for every pin p whose whole 8-pin port lies inside the pin
list, and any stored values of those 8 pins, `digital_write(p, level)` first
stores `level` into pin p, then emits the frame DIGITAL_MESSAGE ORed with the
port, followed by the low and high 7 bits of a port value v whose bit i is
set exactly when the (post-update) stored value of pin 8*port+i is nonzero —
in particular the last-written values of the other 7 pins of the port are
preserved in the emitted port byte. -/
theorem c3_digital_write_port_byte (b : Board) (pin : Nat) (level : Int)
    (h8 : 8 * (pin / 8) + 8 ≤ b.pins.length) (hw : b.connection.wfail = false) :
    ∃ v, v < 256 ∧
      (digital_write b pin level).1 = .ok () ∧
      (digital_write b pin level).2.pins
        = b.pins.set pin { b.pins.getD pin Pin.default with value := level } ∧
      (digital_write b pin level).2.connection.output
        = b.connection.output
          ++ [DIGITAL_MESSAGE ||| (pin / 8) % 256, v &&& SYSEX_REALTIME,
              (v >>> 7) &&& SYSEX_REALTIME] ∧
      (∀ i, i < 8 →
        ((v.testBit i = true) ↔
          ((digital_write b pin level).2.pins.getD (8 * (pin / 8) + i)
            Pin.default).value ≠ 0)) ∧
      (∀ q, q ≠ pin →
        (digital_write b pin level).2.pins.getD q Pin.default
          = b.pins.getD q Pin.default) := by
  have hpin : pin < b.pins.length := by
    have h := Nat.div_add_mod pin 8
    have h2 : pin % 8 < 8 := Nat.mod_lt _ (by omega)
    omega
  have hget := list_get?_eq_getD Pin.default b.pins pin hpin
  obtain ⟨v, hq, hlt, hbit⟩ := digitalPortValue_spec
    (b.pins.set pin { b.pins.getD pin Pin.default with value := level })
    (pin / 8) 8 0 0 (by omega) (by omega)
    (fun j hj1 hj2 => by simp only [List.length_set]; omega)
  have hsh : v >>> 7 < 256 := by
    have : v >>> 7 ≤ v := by
      rw [Nat.shiftRight_eq_div_pow]; exact Nat.div_le_self v (2 ^ 7)
    omega
  refine ⟨v, hlt, ?_, ?_, ?_, ?_, ?_⟩
  · simp only [digital_write, hget, hq, boardWrite, hw, Bool.false_eq_true,
      if_false, ite_false]
  · simp only [digital_write, hget, hq, boardWrite, hw, Bool.false_eq_true,
      if_false, ite_false]
  · simp only [digital_write, hget, hq, boardWrite, hw, Bool.false_eq_true,
      if_false, ite_false]
    rw [Nat.mod_eq_of_lt hlt, Nat.mod_eq_of_lt hsh]
  · intro i hi
    have hb := hbit i
    simp only [Nat.zero_testBit, Bool.false_eq_true, false_or, Nat.zero_le,
      true_and, Nat.zero_add] at hb
    simp only [digital_write, hget, hq, boardWrite, hw, Bool.false_eq_true,
      if_false, ite_false]
    rw [hb]
    exact ⟨fun h => h.2, fun h => ⟨hi, h⟩⟩
  · intro q hqne
    simp only [digital_write, hget, hq, boardWrite, hw, Bool.false_eq_true,
      if_false, ite_false]
    exact list_getD_set_ne Pin.default _ b.pins pin q (fun he => hqne he.symm)

/-- An 8-pin board (one full port) with pins 0 and 7 holding value 1. -/
def c3Board : Board :=
  { boardWithInput [] with
    pins := [{ Pin.default with value := 1 }, Pin.default, Pin.default,
      Pin.default, Pin.default, Pin.default, Pin.default,
      { Pin.default with value := 1 }] }

/-- Witness for C3 on the 8-pin board, writing level 5 to pin 2. -/
theorem c3_digital_write_port_byte_witness :
    ∃ v, v < 256 ∧
      (digital_write c3Board 2 5).1 = .ok () ∧
      (digital_write c3Board 2 5).2.pins
        = c3Board.pins.set 2 { c3Board.pins.getD 2 Pin.default with value := 5 } ∧
      (digital_write c3Board 2 5).2.connection.output
        = c3Board.connection.output
          ++ [DIGITAL_MESSAGE ||| (2 / 8) % 256, v &&& SYSEX_REALTIME,
              (v >>> 7) &&& SYSEX_REALTIME] ∧
      (∀ i, i < 8 →
        ((v.testBit i = true) ↔
          ((digital_write c3Board 2 5).2.pins.getD (8 * (2 / 8) + i)
            Pin.default).value ≠ 0)) ∧
      (∀ q, q ≠ 2 →
        (digital_write c3Board 2 5).2.pins.getD q Pin.default
          = c3Board.pins.getD q Pin.default) :=
  c3_digital_write_port_byte c3Board 2 5 (by decide) rfl
